import Mathlib

/-!
Verification of the Order/Menu domain model of the café ordering
application (source: `src/project/qt/main_model.py`; the text and tkinter
variants duplicate the same class bodies).

Python dictionaries are modelled as insertion-ordered association lists
(`List (String × Int)`); `dictLookup`, `dictSet` and `dictDel` reproduce
the semantics of `d[k]`, `d[k] = v` and `del d[k]` on dictionaries
(unique keys, insertion order preserved, assignment to an existing key
keeps its position, assignment to a new key appends).

Methods that may raise are modelled with `Except`; methods that mutate
`self` in place additionally return the updated state, so a failed call
still yields an (unchanged or partially changed) state, exactly as the
imperative code leaves one behind.
-/

namespace Cafe

/-- Menu category constants (`MenuCategory` in main_model.py). -/
inductive MenuCategory where
  | FOOD
  | RICE
  | DRINKS
deriving DecidableEq

/-- An item on the menu (the `MenuItem` dataclass: name, price, category).
Prices are modelled as rationals. -/
structure MenuItem where
  name : String
  price : ℚ
  category : MenuCategory
deriving DecidableEq

/-- The distinct exceptions the model can raise, one constructor per raise
site: `noSuchItem` is the `NameError` in `Menu.item_named`; `keyError` is a
missing key in the `_stock` dictionary; `noStock`, `limitExceeded` and
`notInOrder` are the three `RuntimeError`s in `Order.add_item` /
`Order.remove_item`. -/
inductive ModelError where
  | noSuchItem (name : String)
  | keyError (name : String)
  | noStock (name : String)
  | limitExceeded (name : String)
  | notInOrder (name : String)
deriving DecidableEq

/-- `d[k]` on a Python dict: first entry with the given key, if any. -/
def dictLookup : List (String × Int) → String → Option Int
  | [], _ => none
  | (k, v) :: rest, key => if k = key then some v else dictLookup rest key

/-- `d[k] = v` on a Python dict: overwrite the first entry with the given
key in place, or append a new entry at the end. -/
def dictSet : List (String × Int) → String → Int → List (String × Int)
  | [], key, val => [(key, val)]
  | (k, v) :: rest, key, val =>
    if k = key then (k, val) :: rest else (k, v) :: dictSet rest key val

/-- `del d[k]` on a Python dict: drop the entries with the given key. -/
def dictDel : List (String × Int) → String → List (String × Int)
  | [], _ => []
  | (k, v) :: rest, key =>
    if k = key then dictDel rest key else (k, v) :: dictDel rest key

/-- The `Menu` dataclass: the item list plus the stock dictionary that
`__post_init__` derives from it. -/
structure Menu where
  _items : List MenuItem
  _stock : List (String × Int)
deriving DecidableEq

/-- `Menu(items)` followed by `__post_init__`: every listed item gets a
stock entry of 20. -/
def Menu.ofItems (items : List MenuItem) : Menu :=
  ⟨items, items.map (fun item => (item.name, 20))⟩

/-- The search loop of `Menu.item_named`: first item with a matching name,
else the `NameError`. -/
def findItem (name : String) : List MenuItem → Except ModelError MenuItem
  | [] => .error (.noSuchItem name)
  | item :: rest => if item.name = name then .ok item else findItem name rest

/-- `Menu.item_named`: linear search of `_items` by exact name. -/
def Menu.item_named (m : Menu) (name : String) : Except ModelError MenuItem :=
  findItem name m._items

/-- `Menu.items_in_category`: filter `_items` by category, keeping order. -/
def Menu.items_in_category (m : Menu) (category : MenuCategory) :
    List MenuItem :=
  m._items.filter (fun item => decide (item.category = category))

/-- `Menu.stock_for_item`: `self._stock[item.name]`, a `KeyError` if the
name has no stock entry. -/
def Menu.stock_for_item (m : Menu) (item : MenuItem) : Except ModelError Int :=
  match dictLookup m._stock item.name with
  | some n => .ok n
  | none => .error (.keyError item.name)

/-- `Menu.sell_item`: read the current stock (a `KeyError` if absent), then
store `stock_count - count`. No clamp, no validation of `count`. -/
def Menu.sell_item (m : Menu) (item : MenuItem) (count : Int) :
    Except ModelError Unit × Menu :=
  match dictLookup m._stock item.name with
  | none => (.error (.keyError item.name), m)
  | some stock_count =>
    (.ok (), { m with _stock := dictSet m._stock item.name (stock_count - count) })

/-- The `Order` class: the referenced menu and the item-count dictionary. -/
structure Order where
  _menu : Menu
  _items : List (String × Int)
deriving DecidableEq

/-- `Order.MAX_ITEM_COUNT = 2`. -/
def Order.MAX_ITEM_COUNT : Int := 2

/-- `Order.__init__`: keep the menu reference, start with an empty dict. -/
def Order.init (menu : Menu) : Order := ⟨menu, []⟩

/-- The accumulation loop of `Order.order_total`: for each entry, resolve
the item via `item_named` (propagating its `NameError`) and add
`price * count` to the running total. -/
def orderTotalGo (menu : Menu) :
    List (String × Int) → ℚ → Except ModelError ℚ
  | [], acc => .ok acc
  | (item_name, count) :: rest, acc =>
    match menu.item_named item_name with
    | .error e => .error e
    | .ok item => orderTotalGo menu rest (acc + item.price * (count : ℚ))

/-- `Order.order_total`: fold the loop over `_items` starting from 0. -/
def Order.order_total (o : Order) : Except ModelError ℚ :=
  orderTotalGo o._menu o._items 0

/-- `Order.add_item`: raise if the stock lookup raises or the stock is 0;
otherwise insert count 1, or increment when below `MAX_ITEM_COUNT`, or
raise the limit error. The returned order is the post-call state. -/
def Order.add_item (o : Order) (item : MenuItem) :
    Except ModelError Unit × Order :=
  match o._menu.stock_for_item item with
  | .error e => (.error e, o)
  | .ok stock =>
    if stock = 0 then (.error (.noStock item.name), o)
    else
      match dictLookup o._items item.name with
      | some count =>
        if count = Order.MAX_ITEM_COUNT then
          (.error (.limitExceeded item.name), o)
        else
          (.ok (), { o with _items := dictSet o._items item.name (count + 1) })
      | none => (.ok (), { o with _items := dictSet o._items item.name 1 })

/-- `Order.remove_item`: raise if the item has no entry; decrement when the
count exceeds 1, otherwise delete the key altogether. -/
def Order.remove_item (o : Order) (item : MenuItem) :
    Except ModelError Unit × Order :=
  match dictLookup o._items item.name with
  | none => (.error (.notInOrder item.name), o)
  | some count =>
    if count > 1 then
      (.ok (), { o with _items := dictSet o._items item.name (count - 1) })
    else
      (.ok (), { o with _items := dictDel o._items item.name })

/-- The §3 data-model invariant of `Order._items`: every entry present has
a strictly positive count. -/
def ItemsInv (d : List (String × Int)) : Prop :=
  ∀ p ∈ d, 0 < p.2

/-- The spec's formula for the order total: the sum over all entries of
the item's current catalog price times the entry's count (0 stands in for
the price of an unresolvable name; the totality theorem assumes every
entry resolves). -/
def entriesTotal (menu : Menu) : List (String × Int) → ℚ
  | [] => 0
  | (item_name, count) :: rest =>
    (match menu.item_named item_name with
     | .ok item => item.price
     | .error _ => 0) * (count : ℚ) + entriesTotal menu rest

/-! ### Dictionary lemmas -/

theorem dictLookup_dictSet_self (d : List (String × Int)) (k : String) (v : Int) :
    dictLookup (dictSet d k v) k = some v := by
  induction d with
  | nil => simp [dictSet, dictLookup]
  | cons hd tl ih =>
    obtain ⟨k₀, v₀⟩ := hd
    by_cases h : k₀ = k <;> simp [dictSet, dictLookup, h, ih]

theorem dictLookup_dictSet_ne (d : List (String × Int)) (k n : String) (v : Int)
    (h : n ≠ k) : dictLookup (dictSet d k v) n = dictLookup d n := by
  induction d with
  | nil =>
    simp [dictSet, dictLookup]
    exact fun a => h a.symm
  | cons hd tl ih =>
    obtain ⟨k₀, v₀⟩ := hd
    by_cases h₀ : k₀ = k
    · subst h₀
      have hne : ¬ k₀ = n := fun a => h a.symm
      simp [dictSet, dictLookup, hne]
    · simp [dictSet, dictLookup, h₀, ih]

theorem dictLookup_dictDel_self (d : List (String × Int)) (k : String) :
    dictLookup (dictDel d k) k = none := by
  induction d with
  | nil => simp [dictDel, dictLookup]
  | cons hd tl ih =>
    obtain ⟨k₀, v₀⟩ := hd
    by_cases h : k₀ = k <;> simp [dictDel, dictLookup, h, ih]

theorem dictLookup_dictDel_ne (d : List (String × Int)) (k n : String)
    (h : n ≠ k) : dictLookup (dictDel d k) n = dictLookup d n := by
  induction d with
  | nil => simp [dictDel, dictLookup]
  | cons hd tl ih =>
    obtain ⟨k₀, v₀⟩ := hd
    by_cases h₀ : k₀ = k
    · subst h₀
      have hne : ¬ k₀ = n := fun a => h a.symm
      simp [dictDel, dictLookup, hne, ih]
    · simp [dictDel, dictLookup, h₀, ih]

/-- Re-assigning the value the first matching entry already holds is the
identity. -/
theorem dictSet_lookup_self (d : List (String × Int)) (k : String) (c : Int)
    (h : dictLookup d k = some c) : dictSet d k c = d := by
  induction d with
  | nil => simp [dictLookup] at h
  | cons hd tl ih =>
    obtain ⟨k₀, v₀⟩ := hd
    by_cases h₀ : k₀ = k
    · simp [dictLookup, h₀] at h
      simp [dictSet, h₀, h]
    · simp [dictLookup, h₀] at h
      simp [dictSet, h₀, ih h]

/-- Two successive assignments to the same key collapse to the second. -/
theorem dictSet_dictSet (d : List (String × Int)) (k : String) (v w : Int) :
    dictSet (dictSet d k v) k w = dictSet d k w := by
  induction d with
  | nil => simp [dictSet]
  | cons hd tl ih =>
    obtain ⟨k₀, v₀⟩ := hd
    by_cases h : k₀ = k <;> simp [dictSet, h, ih]

/-- Deleting a key that was only just inserted restores the dictionary. -/
theorem dictDel_dictSet_of_absent (d : List (String × Int)) (k : String) (v : Int)
    (h : dictLookup d k = none) : dictDel (dictSet d k v) k = d := by
  induction d with
  | nil => simp [dictSet, dictDel]
  | cons hd tl ih =>
    obtain ⟨k₀, v₀⟩ := hd
    by_cases h₀ : k₀ = k
    · simp [dictLookup, h₀] at h
    · simp [dictLookup, h₀] at h
      simp [dictSet, dictDel, h₀, ih h]

/-- A successful lookup comes from an entry of the list. -/
theorem dictLookup_mem (d : List (String × Int)) (k : String) (c : Int)
    (h : dictLookup d k = some c) : (k, c) ∈ d := by
  induction d with
  | nil => simp [dictLookup] at h
  | cons hd tl ih =>
    obtain ⟨k₀, v₀⟩ := hd
    by_cases h₀ : k₀ = k
    · subst h₀
      simp [dictLookup] at h
      simp [h]
    · simp [dictLookup, h₀] at h
      simp [ih h]

/-! ### Invariant helpers -/

theorem ItemsInv.nil : ItemsInv [] := by
  intro p hp
  simp at hp

theorem ItemsInv.dictSet (d : List (String × Int)) (k : String) (v : Int)
    (hd : ItemsInv d) (hv : 0 < v) : ItemsInv (Cafe.dictSet d k v) := by
  induction d with
  | nil =>
    intro p hp
    simp [Cafe.dictSet] at hp
    simp [hp, hv]
  | cons hd₀ tl ih =>
    obtain ⟨k₀, v₀⟩ := hd₀
    have htl : ItemsInv tl := fun p hp => hd p (List.mem_cons_of_mem _ hp)
    by_cases h₀ : k₀ = k
    · intro p hp
      simp [Cafe.dictSet, h₀] at hp
      rcases hp with hp | hp
      · simp [hp, hv]
      · exact htl p hp
    · intro p hp
      simp [Cafe.dictSet, h₀] at hp
      rcases hp with hp | hp
      · exact hd p (by simp [hp])
      · exact ih htl p hp

theorem ItemsInv.dictDel (d : List (String × Int)) (k : String)
    (hd : ItemsInv d) : ItemsInv (Cafe.dictDel d k) := by
  induction d with
  | nil =>
    intro p hp
    simp [Cafe.dictDel] at hp
  | cons hd₀ tl ih =>
    obtain ⟨k₀, v₀⟩ := hd₀
    have htl : ItemsInv tl := fun p hp => hd p (List.mem_cons_of_mem _ hp)
    by_cases h₀ : k₀ = k
    · simp only [Cafe.dictDel, h₀, if_true]
      exact ih htl
    · intro p hp
      simp [Cafe.dictDel, h₀] at hp
      rcases hp with hp | hp
      · exact hd p (by simp [hp])
      · exact ih htl p hp

/-- The invariant gives a positive count for every successful lookup. -/
theorem ItemsInv.lookup_pos (d : List (String × Int)) (k : String) (c : Int)
    (hd : ItemsInv d) (h : dictLookup d k = some c) : 0 < c :=
  hd (k, c) (dictLookup_mem d k c h)

/-! ### Sample values (used by witnesses) -/

def coffeeItem : MenuItem := ⟨"Coffee", 7 / 2, MenuCategory.DRINKS⟩

/-- A catalog holding `coffeeItem` with stock 5. -/
def sampleMenu : Menu := ⟨[coffeeItem], [("Coffee", 5)]⟩

/-- A catalog holding `coffeeItem` with stock 0. -/
def emptyStockMenu : Menu := ⟨[coffeeItem], [("Coffee", 0)]⟩

/-- A catalog holding `coffeeItem` with stock -3. -/
def negativeStockMenu : Menu := ⟨[coffeeItem], [("Coffee", -3)]⟩

/-- An order against `sampleMenu` already holding two coffees. -/
def twoCoffeeOrder : Order := ⟨sampleMenu, [("Coffee", 2)]⟩

/-- An order against `emptyStockMenu` already holding two coffees. -/
def twoCoffeeNoStockOrder : Order := ⟨emptyStockMenu, [("Coffee", 2)]⟩

/-! ### Claim theorems -/

/-- C1: for every order state, every menu item whose catalog stock is > 0,
and a current order count for that item that is < 2 (including the item
being absent, count 0), `Order.add_item` succeeds, increases that item's
order count by exactly 1 (inserting it with count 1 if absent), and leaves
every other item's count in the order unchanged. -/
theorem C1_add_item_increments (o : Order) (item : MenuItem) (s : Int)
    (hs : o._menu.stock_for_item item = .ok s) (hpos : 0 < s)
    (hc : ∀ c, dictLookup o._items item.name = some c → c < 2) :
    (o.add_item item).1 = .ok () ∧
    dictLookup (o.add_item item).2._items item.name =
      some ((dictLookup o._items item.name).getD 0 + 1) ∧
    ∀ n, n ≠ item.name →
      dictLookup (o.add_item item).2._items n = dictLookup o._items n := by
  have hs0 : ¬ (s = 0) := by omega
  cases hcase : dictLookup o._items item.name with
  | none =>
    refine ⟨?_, ?_, ?_⟩ <;>
      simp [Order.add_item, hs, hs0, hcase, dictLookup_dictSet_self]
    intro n hn
    exact dictLookup_dictSet_ne _ _ _ _ hn
  | some c =>
    have hc2 : ¬ (c = Order.MAX_ITEM_COUNT) := by
      have := hc c hcase
      simp only [Order.MAX_ITEM_COUNT]
      omega
    refine ⟨?_, ?_, ?_⟩ <;>
      simp [Order.add_item, hs, hs0, hcase, hc2, dictLookup_dictSet_self]
    intro n hn
    exact dictLookup_dictSet_ne _ _ _ _ hn

/-- Witness for C1: adding a coffee (stock 5) to the empty order succeeds
and records count 1. -/
theorem C1_witness :
    ((Order.init sampleMenu).add_item coffeeItem).1 = .ok () ∧
    dictLookup ((Order.init sampleMenu).add_item coffeeItem).2._items "Coffee" =
      some ((dictLookup (Order.init sampleMenu)._items "Coffee").getD 0 + 1) ∧
    ∀ n, n ≠ "Coffee" →
      dictLookup ((Order.init sampleMenu).add_item coffeeItem).2._items n =
        dictLookup (Order.init sampleMenu)._items n :=
  C1_add_item_increments (Order.init sampleMenu) coffeeItem 5 rfl
    (by decide)
    (by intro c h; simp [Order.init, dictLookup] at h)

/-- C2 counterexample: an order already holding two coffees whose catalog
stock is 0. `add_item` fails with the out-of-stock error (the stock check
runs first), not the limit error, refuting the claim as stated. -/
theorem C2_counterexample :
    dictLookup twoCoffeeNoStockOrder._items "Coffee" = some 2 ∧
    (twoCoffeeNoStockOrder.add_item coffeeItem).1 =
      .error (.noStock "Coffee") ∧
    (twoCoffeeNoStockOrder.add_item coffeeItem).1 ≠
      .error (.limitExceeded "Coffee") := by
  refine ⟨rfl, rfl, ?_⟩
  intro h
  simp [twoCoffeeNoStockOrder, emptyStockMenu, coffeeItem, Order.add_item,
    Menu.stock_for_item, dictLookup] at h

/-- C2 (amended): for every order state in which an item already has order
count 2 (`MAX_ITEM_COUNT`) and whose catalog stock lookup succeeds with a
nonzero value, `add_item` on that item fails with the limit-exceeded error
and the order state is exactly unchanged. -/
theorem C2_limit_exceeded (o : Order) (item : MenuItem) (s : Int)
    (hs : o._menu.stock_for_item item = .ok s) (hs0 : s ≠ 0)
    (hc : dictLookup o._items item.name = some 2) :
    (o.add_item item).1 = .error (.limitExceeded item.name) ∧
    (o.add_item item).2 = o := by
  constructor <;>
    simp [Order.add_item, hs, hs0, hc, Order.MAX_ITEM_COUNT]

/-- Witness for C2: two coffees already ordered, stock 5: the third add
fails with the limit error and leaves the order unchanged. -/
theorem C2_witness :
    (twoCoffeeOrder.add_item coffeeItem).1 =
      .error (.limitExceeded "Coffee") ∧
    (twoCoffeeOrder.add_item coffeeItem).2 = twoCoffeeOrder :=
  C2_limit_exceeded twoCoffeeOrder coffeeItem 5 rfl (by decide) rfl

/-- C3: for every order state and every menu item whose catalog stock
equals 0, `add_item` fails with the out-of-stock error — whatever the
item's current order count — and the order state is exactly unchanged. -/
theorem C3_out_of_stock (o : Order) (item : MenuItem)
    (hs : o._menu.stock_for_item item = .ok 0) :
    (o.add_item item).1 = .error (.noStock item.name) ∧
    (o.add_item item).2 = o := by
  constructor <;> simp [Order.add_item, hs]

/-- Witness for C3: with stock 0 and the item already at count 2 the add
fails out-of-stock and changes nothing. -/
theorem C3_witness :
    (twoCoffeeNoStockOrder.add_item coffeeItem).1 =
      .error (.noStock "Coffee") ∧
    (twoCoffeeNoStockOrder.add_item coffeeItem).2 = twoCoffeeNoStockOrder :=
  C3_out_of_stock twoCoffeeNoStockOrder coffeeItem rfl

/-- An order against `sampleMenu` holding one coffee. -/
def oneCoffeeOrder : Order := ⟨sampleMenu, [("Coffee", 1)]⟩

/-- C4: `remove_item` deletes an entry of count 1 entirely; decrements an
entry of count > 1 by exactly 1; fails with the not-in-order error and
changes nothing when the item has no entry; and in every case leaves the
other items' counts unchanged. -/
theorem C4_remove_item (o : Order) (item : MenuItem) :
    (dictLookup o._items item.name = some 1 →
      (o.remove_item item).1 = .ok () ∧
      dictLookup (o.remove_item item).2._items item.name = none) ∧
    (∀ c, dictLookup o._items item.name = some c → 1 < c →
      (o.remove_item item).1 = .ok () ∧
      dictLookup (o.remove_item item).2._items item.name = some (c - 1)) ∧
    (dictLookup o._items item.name = none →
      (o.remove_item item).1 = .error (.notInOrder item.name) ∧
      (o.remove_item item).2 = o) ∧
    (∀ n, n ≠ item.name →
      dictLookup (o.remove_item item).2._items n = dictLookup o._items n) := by
  refine ⟨?_, ?_, ?_, ?_⟩
  · intro h
    constructor <;> simp [Order.remove_item, h, dictLookup_dictDel_self]
  · intro c hc hgt
    have h1 : c > 1 := hgt
    constructor <;> simp [Order.remove_item, hc, h1, dictLookup_dictSet_self]
  · intro h
    constructor <;> simp [Order.remove_item, h]
  · intro n hn
    cases hcase : dictLookup o._items item.name with
    | none => simp [Order.remove_item, hcase]
    | some c =>
      by_cases h1 : c > 1
      · simp [Order.remove_item, hcase, h1, dictLookup_dictSet_ne _ _ _ _ hn]
      · simp [Order.remove_item, hcase, h1, dictLookup_dictDel_ne _ _ _ hn]

/-- Witness for C4: removing the single coffee deletes its entry, and an
unrelated name is untouched. -/
theorem C4_witness :
    ((oneCoffeeOrder.remove_item coffeeItem).1 = .ok () ∧
      dictLookup (oneCoffeeOrder.remove_item coffeeItem).2._items "Coffee" =
        none) ∧
    dictLookup (oneCoffeeOrder.remove_item coffeeItem).2._items "Tea" =
      dictLookup oneCoffeeOrder._items "Tea" :=
  ⟨(C4_remove_item oneCoffeeOrder coffeeItem).1 rfl,
   (C4_remove_item oneCoffeeOrder coffeeItem).2.2.2 "Tea" (by decide)⟩

/-- The `order_total` loop yields the accumulator plus the spec's sum,
provided every entry's name resolves in the catalog. -/
theorem orderTotalGo_eq (menu : Menu) (items : List (String × Int)) (acc : ℚ)
    (h : ∀ p ∈ items, ∃ it, menu.item_named p.1 = .ok it) :
    orderTotalGo menu items acc = .ok (acc + entriesTotal menu items) := by
  induction items generalizing acc with
  | nil => simp [orderTotalGo, entriesTotal]
  | cons hd tl ih =>
    obtain ⟨n, c⟩ := hd
    obtain ⟨it, hit⟩ := h (n, c) (by simp)
    have htl : ∀ p ∈ tl, ∃ i2, menu.item_named p.1 = .ok i2 :=
      fun p hp => h p (List.mem_cons_of_mem _ hp)
    simp only [orderTotalGo, hit]
    rw [ih _ htl]
    simp [entriesTotal, hit]
    ring

/-- C5: for every order whose every entry names an item present in the
catalog, `order_total` equals the sum over the entries of the item's
current catalog price times the entry's count, the prices being resolved
through the catalog the order references at call time (so a different
catalog gives a different total), and the total of an empty order is 0. -/
theorem C5_order_total (menu : Menu) (items : List (String × Int))
    (h : ∀ p ∈ items, ∃ it, menu.item_named p.1 = .ok it) :
    Order.order_total ⟨menu, items⟩ = .ok (entriesTotal menu items) ∧
    ∀ m2 : Menu, Order.order_total ⟨m2, []⟩ = .ok 0 := by
  constructor
  · have := orderTotalGo_eq menu items 0 h
    simpa [Order.order_total] using this
  · intro m2
    simp [Order.order_total, orderTotalGo]

/-- Witness for C5: two coffees at price 7/2 total as the spec's sum, and
the empty order totals 0. -/
theorem C5_witness :
    Order.order_total ⟨sampleMenu, [("Coffee", 2)]⟩ =
      .ok (entriesTotal sampleMenu [("Coffee", 2)]) ∧
    Order.order_total ⟨emptyStockMenu, []⟩ = .ok 0 :=
  ⟨(C5_order_total sampleMenu [("Coffee", 2)]
      (by intro p hp; simp at hp; subst hp; exact ⟨coffeeItem, rfl⟩)).1,
   (C5_order_total sampleMenu [] (by simp)).2 emptyStockMenu⟩

/-- C6: whenever `add_item` succeeds on an order satisfying the
positive-count invariant, an immediate `remove_item` of the same item
succeeds and restores the item-count dictionary exactly — in particular a
previously absent item is fully absent again. -/
theorem C6_round_trip (o : Order) (item : MenuItem)
    (hinv : ItemsInv o._items)
    (hok : (o.add_item item).1 = .ok ()) :
    ((o.add_item item).2.remove_item item).1 = .ok () ∧
    ((o.add_item item).2.remove_item item).2._items = o._items := by
  cases hs : o._menu.stock_for_item item with
  | error e => simp [Order.add_item, hs] at hok
  | ok s =>
    by_cases hs0 : s = 0
    · simp [Order.add_item, hs, hs0] at hok
    · cases hcase : dictLookup o._items item.name with
      | none =>
        have hadd : (o.add_item item).2 =
            { o with _items := dictSet o._items item.name 1 } := by
          simp [Order.add_item, hs, hs0, hcase]
        rw [hadd]
        have hlook : dictLookup (dictSet o._items item.name 1) item.name =
            some 1 := dictLookup_dictSet_self _ _ _
        constructor
        · simp [Order.remove_item, hlook]
        · simp [Order.remove_item, hlook,
            dictDel_dictSet_of_absent _ _ _ hcase]
      | some c =>
        have hcpos : 0 < c := ItemsInv.lookup_pos _ _ _ hinv hcase
        by_cases hc2 : c = Order.MAX_ITEM_COUNT
        · simp [Order.add_item, hs, hs0, hcase, hc2] at hok
        · have hadd : (o.add_item item).2 =
              { o with _items := dictSet o._items item.name (c + 1) } := by
            simp [Order.add_item, hs, hs0, hcase, hc2]
          rw [hadd]
          have hlook : dictLookup (dictSet o._items item.name (c + 1))
              item.name = some (c + 1) := dictLookup_dictSet_self _ _ _
          have hgt : c + 1 > 1 := by omega
          constructor
          · simp [Order.remove_item, hlook, hgt]
          · simp only [Order.remove_item, hlook, hgt, if_pos]
            rw [show c + 1 - 1 = c by omega]
            simp [dictSet_dictSet, dictSet_lookup_self _ _ _ hcase]

/-- Witness for C6: add a coffee to the empty order, remove it, and the
item dictionary is empty again. -/
theorem C6_witness :
    (((Order.init sampleMenu).add_item coffeeItem).2.remove_item
        coffeeItem).1 = .ok () ∧
    (((Order.init sampleMenu).add_item coffeeItem).2.remove_item
        coffeeItem).2._items = (Order.init sampleMenu)._items :=
  C6_round_trip (Order.init sampleMenu) coffeeItem
    (by intro p hp; simp [Order.init] at hp) rfl

/-- C7: the positive-count invariant of the item dictionary holds for a
freshly constructed order and is preserved by `add_item` and
`remove_item`, whether they succeed or fail (the `.2` component is the
post-call state in either case). -/
theorem C7_order_invariant (menu : Menu) :
    ItemsInv (Order.init menu)._items ∧
    (∀ (o : Order) (item : MenuItem), ItemsInv o._items →
      ItemsInv (o.add_item item).2._items) ∧
    (∀ (o : Order) (item : MenuItem), ItemsInv o._items →
      ItemsInv (o.remove_item item).2._items) := by
  refine ⟨ItemsInv.nil, ?_, ?_⟩
  · intro o item hinv
    cases hs : o._menu.stock_for_item item with
    | error e => simpa [Order.add_item, hs] using hinv
    | ok s =>
      by_cases hs0 : s = 0
      · simpa [Order.add_item, hs, hs0] using hinv
      · cases hcase : dictLookup o._items item.name with
        | none =>
          simp only [Order.add_item, hs, hs0, if_false, hcase]
          exact ItemsInv.dictSet _ _ _ hinv (by omega)
        | some c =>
          by_cases hc2 : c = Order.MAX_ITEM_COUNT
          · simpa [Order.add_item, hs, hs0, hcase, hc2] using hinv
          · have hcpos : 0 < c := ItemsInv.lookup_pos _ _ _ hinv hcase
            simp only [Order.add_item, hs, hs0, if_false, hcase, hc2]
            exact ItemsInv.dictSet _ _ _ hinv (by omega)
  · intro o item hinv
    cases hcase : dictLookup o._items item.name with
    | none => simpa [Order.remove_item, hcase] using hinv
    | some c =>
      by_cases h1 : c > 1
      · simp only [Order.remove_item, hcase, h1, if_true]
        exact ItemsInv.dictSet _ _ _ hinv (by omega)
      · simp only [Order.remove_item, hcase, h1, if_false]
        exact ItemsInv.dictDel _ _ hinv

/-- Witness for C7: the fresh order satisfies the invariant, and still
does after an `add_item`. -/
theorem C7_witness :
    ItemsInv (Order.init sampleMenu)._items ∧
    ItemsInv ((Order.init sampleMenu).add_item coffeeItem).2._items :=
  ⟨(C7_order_invariant sampleMenu).1,
   (C7_order_invariant sampleMenu).2.1 (Order.init sampleMenu) coffeeItem
     (C7_order_invariant sampleMenu).1⟩

/-- C8: for every item present in the stock dictionary and every integer
count, `sell_item` succeeds and sets the item's stock to its previous
value minus the count — no clamp and no validation, so the result may be
negative. -/
theorem C8_sell_item (m : Menu) (item : MenuItem) (count s : Int)
    (hs : dictLookup m._stock item.name = some s) :
    (m.sell_item item count).1 = .ok () ∧
    dictLookup (m.sell_item item count).2._stock item.name =
      some (s - count) := by
  constructor <;> simp [Menu.sell_item, hs, dictLookup_dictSet_self]

/-- Witness for C8: selling 25 coffees from stock 5 leaves stock 5 - 25,
a negative value. -/
theorem C8_witness :
    (sampleMenu.sell_item coffeeItem 25).1 = .ok () ∧
    dictLookup (sampleMenu.sell_item coffeeItem 25).2._stock "Coffee" =
      some (5 - 25) :=
  C8_sell_item sampleMenu coffeeItem 25 5 rfl

/-- C9 counterexample: `sell_item` with the integer count -1 raises the
stock of "Coffee" from 5 to 6, so a stock counter can increase under a
single operation, refuting the claim's "never increases ... for every
integer count argument". -/
theorem C9_counterexample :
    dictLookup sampleMenu._stock "Coffee" = some 5 ∧
    (sampleMenu.sell_item coffeeItem (-1)).1 = .ok () ∧
    dictLookup (sampleMenu.sell_item coffeeItem (-1)).2._stock "Coffee" =
      some 6 ∧
    ¬ ((6 : Int) ≤ 5) :=
  ⟨rfl, rfl, rfl, by decide⟩

/-- C9 (amended): the order operations never touch the referenced menu, so
stock is mutated only by `sell_item`; and `sell_item` with a nonnegative
count never increases any item's stock. (The read operations `item_named`,
`items_in_category` and `stock_for_item` return no state at all in this
model, matching the Python methods, which never assign.) -/
theorem C9_stock_monotone :
    (∀ (o : Order) (item : MenuItem), (o.add_item item).2._menu = o._menu) ∧
    (∀ (o : Order) (item : MenuItem),
      (o.remove_item item).2._menu = o._menu) ∧
    (∀ (m : Menu) (item : MenuItem) (count : Int), 0 ≤ count →
      ∀ (n : String) (v w : Int),
        dictLookup m._stock n = some v →
        dictLookup (m.sell_item item count).2._stock n = some w →
        w ≤ v) := by
  refine ⟨?_, ?_, ?_⟩
  · intro o item
    cases hs : o._menu.stock_for_item item with
    | error e => simp [Order.add_item, hs]
    | ok s =>
      by_cases hs0 : s = 0
      · simp [Order.add_item, hs, hs0]
      · cases hcase : dictLookup o._items item.name with
        | none => simp [Order.add_item, hs, hs0, hcase]
        | some c =>
          by_cases hc2 : c = Order.MAX_ITEM_COUNT <;>
            simp [Order.add_item, hs, hs0, hcase, hc2]
  · intro o item
    cases hcase : dictLookup o._items item.name with
    | none => simp [Order.remove_item, hcase]
    | some c =>
      by_cases h1 : c > 1 <;> simp [Order.remove_item, hcase, h1]
  · intro m item count hcount n v w hv hw
    cases hstock : dictLookup m._stock item.name with
    | none =>
      simp only [Menu.sell_item, hstock] at hw
      rw [hv] at hw
      simp at hw
      omega
    | some s =>
      by_cases hn : n = item.name
      · subst hn
        rw [hstock] at hv
        simp at hv
        simp only [Menu.sell_item, hstock] at hw
        rw [dictLookup_dictSet_self] at hw
        simp at hw
        omega
      · simp only [Menu.sell_item, hstock] at hw
        rw [dictLookup_dictSet_ne _ _ _ _ hn] at hw
        rw [hv] at hw
        simp at hw
        omega

/-- Witness for C9: selling 2 coffees from stock 5 leaves stock 3 ≤ 5. -/
theorem C9_witness :
    dictLookup (sampleMenu.sell_item coffeeItem 2).2._stock "Coffee" =
      some 3 ∧ (3 : Int) ≤ 5 :=
  ⟨rfl,
   C9_stock_monotone.2.2 sampleMenu coffeeItem 2 (by decide) "Coffee" 5 3
     rfl rfl⟩

/-- C10: for an item whose catalog stock is strictly negative, `add_item`
never raises the out-of-stock error (the guard tests equality with zero
only) and behaves exactly as for an in-stock item: count 1 if absent,
increment when the count is < 2, limit error when the count is 2. -/
theorem C10_negative_stock (o : Order) (item : MenuItem) (s : Int)
    (hs : o._menu.stock_for_item item = .ok s) (hneg : s < 0) :
    (o.add_item item).1 ≠ .error (.noStock item.name) ∧
    (dictLookup o._items item.name = none →
      (o.add_item item).1 = .ok () ∧
      dictLookup (o.add_item item).2._items item.name = some 1) ∧
    (∀ c, dictLookup o._items item.name = some c → c < 2 →
      (o.add_item item).1 = .ok () ∧
      dictLookup (o.add_item item).2._items item.name = some (c + 1)) ∧
    (dictLookup o._items item.name = some 2 →
      (o.add_item item).1 = .error (.limitExceeded item.name) ∧
      (o.add_item item).2 = o) := by
  have hs0 : ¬ (s = 0) := by omega
  refine ⟨?_, ?_, ?_, ?_⟩
  · cases hcase : dictLookup o._items item.name with
    | none => simp [Order.add_item, hs, hs0, hcase]
    | some c =>
      by_cases hc2 : c = Order.MAX_ITEM_COUNT <;>
        simp [Order.add_item, hs, hs0, hcase, hc2]
  · intro h
    constructor <;>
      simp [Order.add_item, hs, hs0, h, dictLookup_dictSet_self]
  · intro c hc hlt
    have hc2 : ¬ (c = Order.MAX_ITEM_COUNT) := by
      simp only [Order.MAX_ITEM_COUNT]
      omega
    constructor <;>
      simp [Order.add_item, hs, hs0, hc, hc2, dictLookup_dictSet_self]
  · intro h
    constructor <;>
      simp [Order.add_item, hs, hs0, h, Order.MAX_ITEM_COUNT]

/-- Witness for C10: with stock -3, adding a coffee to the empty order
succeeds with count 1 and is not an out-of-stock failure. -/
theorem C10_witness :
    ((Order.init negativeStockMenu).add_item coffeeItem).1 ≠
      .error (.noStock "Coffee") ∧
    ((Order.init negativeStockMenu).add_item coffeeItem).1 = .ok () ∧
    dictLookup ((Order.init negativeStockMenu).add_item coffeeItem).2._items
      "Coffee" = some 1 :=
  ⟨(C10_negative_stock (Order.init negativeStockMenu) coffeeItem (-3) rfl
      (by decide)).1,
   (C10_negative_stock (Order.init negativeStockMenu) coffeeItem (-3) rfl
      (by decide)).2.1 rfl⟩

end Cafe
